import Mathlib

/-!
Verification of the connection/room session manager of the demo-chat server
(`demo-chat/server/websocket_handler.py` and `demo-chat/server/models.py`).

The Python `ConnectionManager` is embedded shallowly:

* Python dicts become association lists (`dget` / `dset` / `derase` mirror
  `d.get(k)` / `d[k] = v` / `del d[k]`);
* session, room and message identifiers (`generate_id`, i.e. `uuid.uuid4()`)
  are modelled by a fresh-id counter `next_id` carried in the state — each
  generated id is the counter value, and the counter is bumped, which models
  global uniqueness of uuid4; Python truthiness on an id string (uuid strings
  are never empty) becomes an `Option` check;
* `generate_room_code` is random, so the generated code is passed to
  `create_room` as an oracle argument; `genRoomCode` below models the
  generator itself (`random.choices(ascii_uppercase + digits, k=6)`) as a
  function of the six random draws;
* timestamps (`created_at`, `timestamp`, `joined_at`) play no role in any
  handler's control flow and are omitted from the records;
* an outbound `websocket.send_json` becomes an emitted `(recipient, Payload)`
  pair; `send_personal_message` only sends to ids in `active_connections`;
* a Python exception raised inside a handler is modelled by the handler
  returning `some msg` in its third component, together with the state as
  mutated up to the raise point; `handle_message` converts it to an
  `INTERNAL_ERROR` unicast, exactly as the `try/except` in the source.
-/

/-- One key/value map lookup, `d.get(k)` on a Python dict. -/
def dget [DecidableEq α] : List (α × β) → α → Option β
  | [], _ => none
  | (k, v) :: rest, k' => if k = k' then some v else dget rest k'

/-- Map update `d[k] = v`: replace the binding in place, or append a new one. -/
def dset [DecidableEq α] : List (α × β) → α → β → List (α × β)
  | [], k, v => [(k, v)]
  | (k', v') :: rest, k, v =>
      if k' = k then (k, v) :: rest else (k', v') :: dset rest k v

/-- Map deletion `del d[k]` (identity when the key is absent, like a guarded del). -/
def derase [DecidableEq α] : List (α × β) → α → List (α × β)
  | [], _ => []
  | (k', v') :: rest, k => if k' = k then rest else (k', v') :: derase rest k

/-- The keys of an association list. -/
def dkeys (m : List (α × β)) : List α := m.map Prod.fst

/-- `models.User` (timestamps omitted; ids are `Nat`, see the header comment). -/
structure User where
  id : Nat
  name : String := "Anonymous"
  language : String := "en"
  room_id : Option Nat := none
deriving DecidableEq, Repr

/-- `models.Room` (`created_at` omitted). -/
structure Room where
  id : Nat
  code : String
  name : String
  host_id : Nat
deriving DecidableEq, Repr

/-- `models.Message` (`timestamp` omitted). -/
structure Message where
  id : Nat
  room_id : Nat
  sender_id : Nat
  sender_name : String
  text : String
  source_lang : String
deriving DecidableEq, Repr

/-- `models.Member` (`joined_at` omitted). -/
structure Member where
  id : Nat
  name : String
  language : String
  is_host : Bool := false
deriving DecidableEq, Repr

/-- `User.to_member`. -/
def User.to_member (u : User) (is_host : Bool := false) : Member :=
  { id := u.id, name := u.name, language := u.language, is_host := is_host }

/-- The population string of `generate_room_code`:
`string.ascii_uppercase + string.digits`, as its list of characters. -/
def codeAlphabet : List Char := "ABCDEFGHIJKLMNOPQRSTUVWXYZ0123456789".toList

/-- `models.generate_room_code`: six independent draws from `codeAlphabet`
(`random.choices(..., k=6)`), the draws being the oracle argument. -/
def genRoomCode (picks : Fin 6 → Fin 36) : String :=
  ⟨(List.finRange 6).map fun i => codeAlphabet.getD (picks i).1 'A'⟩

/-- Python `str.upper()` restricted to what the server needs: uppercase each
character (`.upper()` on room codes). -/
def pyUpper (s : String) : String := ⟨s.data.map Char.toUpper⟩

/-- Python `str.strip()`: drop leading and trailing whitespace. -/
def pyStrip (s : String) : String :=
  ⟨((s.data.dropWhile Char.isWhitespace).reverse.dropWhile Char.isWhitespace).reverse⟩

/-- One outbound JSON payload (the `type`-tagged dicts built by the handlers). -/
inductive Payload where
  | connected (userId : Nat)
  | roomCreated (room : Room) (members : List Member)
  | roomJoined (room : Room) (members : List Member) (messages : List Message)
  | userJoined (user : Member) (isUpdate : Bool)
  | userLeft (userId : Nat) (userName : String)
  | newMessage (message : Message)
  | roomInfo (room : Room) (members : List Member)
  | profileUpdated (user : Member)
  | pong
  | error (code : String) (message : String)
deriving DecidableEq, Repr

/-- The state of `ConnectionManager`, plus the fresh-id counter modelling
`generate_id`. `active_connections` keeps only the ids (the socket handles
carry no state the manager reads). -/
structure CM where
  active_connections : List Nat := []
  users : List (Nat × User) := []
  rooms : List (Nat × Room) := []
  room_codes : List (String × Nat) := []
  room_members : List (Nat × List Nat) := []
  room_messages : List (Nat × List Message) := []
  next_id : Nat := 0
deriving DecidableEq, Repr

/-- The initial manager state (`ConnectionManager.__init__`). -/
def CM.init : CM := {}

/-- `send_personal_message`: delivered only when the target has a live
connection. -/
def sendPersonal (s : CM) (p : Payload) (uid : Nat) : List (Nat × Payload) :=
  if uid ∈ s.active_connections then [(uid, p)] else []

/-- `broadcast_to_room`: one `send_personal_message` per member in membership
order, skipping `exclude_user` when given. -/
def broadcastToRoom (s : CM) (p : Payload) (rid : Nat) (exclude : Option Nat) :
    List (Nat × Payload) :=
  match dget s.room_members rid with
  | none => []
  | some mem =>
      (mem.filter fun m => !(exclude == some m)).flatMap fun m => sendPersonal s p m

/-- An inbound request: the `data` dict, a field per key any handler reads.
`none` models an absent key. -/
structure Data where
  type : Option String := none
  roomName : Option String := none
  hostName : Option String := none
  language : Option String := none
  roomCode : Option String := none
  userName : Option String := none
  text : Option String := none
  name : Option String := none
deriving DecidableEq, Repr

/-- `ConnectionManager._cleanup_room`. -/
def cleanupRoom (s : CM) (rid : Nat) : CM :=
  let s :=
    match dget s.rooms rid with
    | some room => { s with room_codes := derase s.room_codes room.code }
    | none => s
  { s with
      rooms := derase s.rooms rid
      room_members := derase s.room_members rid
      room_messages := derase s.room_messages rid }

/-- `ConnectionManager._leave_room`. -/
def leaveRoom (s : CM) (uid : Nat) : CM × List (Nat × Payload) :=
  match dget s.users uid with
  | none => (s, [])
  | some u =>
      match u.room_id with
      | none => (s, [])
      | some rid =>
          let room := dget s.rooms rid
          let s :=
            match dget s.room_members rid with
            | some mem =>
                if uid ∈ mem then
                  { s with room_members := dset s.room_members rid (mem.erase uid) }
                else s
            | none => s
          let evs :=
            match room with
            | some _ => broadcastToRoom s (.userLeft uid u.name) rid none
            | none => []
          let s := { s with users := dset s.users uid { u with room_id := none } }
          let s :=
            if dget s.room_members rid = some [] then cleanupRoom s rid else s
          (s, evs)

/-- `ConnectionManager._handle_create_room`; `code` is the oracle output of
`generate_room_code` consumed by the `Room` constructor's default factory. -/
def createRoom (s : CM) (uid : Nat) (data : Data) (code : String) :
    CM × List (Nat × Payload) :=
  match dget s.users uid with
  | none => (s, [])
  | some u0 =>
      let (s, evsL) :=
        if u0.room_id.isSome then leaveRoom s uid else (s, [])
      match dget s.users uid with
      | none => (s, evsL)
      | some u =>
          let room_name := data.roomName.getD "New Room"
          let host_name := data.hostName.getD "Host"
          let language := data.language.getD "en"
          let rid := s.next_id
          let room : Room := { id := rid, code := code, name := room_name, host_id := uid }
          let u := { u with name := host_name, language := language, room_id := some rid }
          let s :=
            { s with
                next_id := s.next_id + 1
                rooms := dset s.rooms rid room
                room_codes := dset s.room_codes code rid
                room_members := dset s.room_members rid [uid]
                room_messages := dset s.room_messages rid []
                users := dset s.users uid u }
          (s, evsL ++ sendPersonal s (.roomCreated room [u.to_member true]) uid)

/-- `ConnectionManager._handle_join_room`. The third component is a raised
exception: indexing `self.room_members[room_id]` after `_leave_room` has
destroyed the room raises `KeyError`, with the partial mutations kept. -/
def joinRoom (s : CM) (uid : Nat) (data : Data) :
    CM × List (Nat × Payload) × Option String :=
  match dget s.users uid with
  | none => (s, [], none)
  | some u0 =>
      let room_code := pyUpper (data.roomCode.getD "")
      let user_name := data.userName.getD "Guest"
      let language := data.language.getD "en"
      match dget s.room_codes room_code with
      | none => (s, sendPersonal s (.error "INVALID_ROOM_CODE" "Room not found") uid, none)
      | some rid =>
          match dget s.rooms rid with
          | none => (s, sendPersonal s (.error "INVALID_ROOM_CODE" "Room not found") uid, none)
          | some room =>
              let (s, evsL) :=
                if u0.room_id.isSome then leaveRoom s uid else (s, [])
              match dget s.users uid with
              | none => (s, evsL, none)
              | some u =>
                  let u := { u with name := user_name, language := language,
                                    room_id := some rid }
                  let s := { s with users := dset s.users uid u }
                  match dget s.room_members rid with
                  | none => (s, evsL, some ("KeyError: " ++ toString rid))
                  | some mem =>
                      let mem := if uid ∈ mem then mem else mem ++ [uid]
                      let s := { s with room_members := dset s.room_members rid mem }
                      let members := mem.filterMap fun mid =>
                        (dget s.users mid).map fun mu => mu.to_member (mid == room.host_id)
                      let recent := ((dget s.room_messages rid).getD []).drop
                        (((dget s.room_messages rid).getD []).length - 50)
                      let evs1 := sendPersonal s (.roomJoined room members recent) uid
                      let evs2 := broadcastToRoom s (.userJoined u.to_member false) rid (some uid)
                      (s, evsL ++ evs1 ++ evs2, none)

/-- `ConnectionManager._handle_send_message`. -/
def sendMessage (s : CM) (uid : Nat) (data : Data) : CM × List (Nat × Payload) :=
  match dget s.users uid with
  | none => (s, [])
  | some u =>
      match u.room_id with
      | none =>
          (s, sendPersonal s (.error "NOT_IN_ROOM" "You must join a room first") uid)
      | some rid =>
          let text := pyStrip (data.text.getD "")
          if text = "" then (s, [])
          else
            let m : Message :=
              { id := s.next_id, room_id := rid, sender_id := uid,
                sender_name := u.name, text := text, source_lang := u.language }
            let s := { s with next_id := s.next_id + 1 }
            let s :=
              match dget s.room_messages rid with
              | some hist =>
                  let hist := hist ++ [m]
                  let hist :=
                    if hist.length > 100 then hist.drop (hist.length - 100) else hist
                  { s with room_messages := dset s.room_messages rid hist }
              | none => s
            (s, broadcastToRoom s (.newMessage m) rid none)

/-- Python truthiness of an optional string payload field (`if name:`). -/
def truthy : Option String → Bool
  | some t => t ≠ ""
  | none => false

/-- `ConnectionManager._handle_update_profile`. -/
def updateProfile (s : CM) (uid : Nat) (data : Data) : CM × List (Nat × Payload) :=
  match dget s.users uid with
  | none => (s, [])
  | some u =>
      let old_name := u.name
      let u := if truthy data.name then { u with name := data.name.getD "" } else u
      let u := if truthy data.language then { u with language := data.language.getD "" } else u
      let s := { s with users := dset s.users uid u }
      let evs1 := sendPersonal s (.profileUpdated u.to_member) uid
      let evs2 :=
        match u.room_id with
        | some rid =>
            if truthy data.name ∧ data.name.getD "" ≠ old_name then
              broadcastToRoom s (.userJoined u.to_member true) rid (some uid)
            else []
        | none => []
      (s, evs1 ++ evs2)

/-- `ConnectionManager._handle_get_room_info`. -/
def getRoomInfo (s : CM) (uid : Nat) : CM × List (Nat × Payload) :=
  match dget s.users uid with
  | none => (s, sendPersonal s (.error "NOT_IN_ROOM" "You are not in a room") uid)
  | some u =>
      match u.room_id with
      | none => (s, sendPersonal s (.error "NOT_IN_ROOM" "You are not in a room") uid)
      | some rid =>
          match dget s.rooms rid with
          | none => (s, sendPersonal s (.error "ROOM_NOT_FOUND" "Room not found") uid)
          | some room =>
              let members := ((dget s.room_members rid).getD []).filterMap fun mid =>
                (dget s.users mid).map fun mu => mu.to_member (mid == room.host_id)
              (s, sendPersonal s (.roomInfo room members) uid)

/-- Rendering of the `type` field inside the unknown-type error message
(an f-string prints an absent value as `None`). -/
def showType : Option String → String
  | some t => t
  | none => "None"

/-- `ConnectionManager.handle_message`: dispatch on `data.get("type")`, with
the `try/except` turning a raised exception into an `INTERNAL_ERROR` unicast.
`code` is the room-code oracle consumed when the request is a `CREATE_ROOM`. -/
def handleMessage (s : CM) (uid : Nat) (data : Data) (code : String) :
    CM × List (Nat × Payload) :=
  if data.type = some "CREATE_ROOM" then createRoom s uid data code
  else if data.type = some "JOIN_ROOM" then
    let (s, evs, exn) := joinRoom s uid data
    match exn with
    | none => (s, evs)
    | some e => (s, evs ++ sendPersonal s (.error "INTERNAL_ERROR" e) uid)
  else if data.type = some "LEAVE_ROOM" then leaveRoom s uid
  else if data.type = some "SEND_MESSAGE" then sendMessage s uid data
  else if data.type = some "UPDATE_PROFILE" then updateProfile s uid data
  else if data.type = some "GET_ROOM_INFO" then getRoomInfo s uid
  else if data.type = some "PING" then (s, sendPersonal s .pong uid)
  else
    (s, sendPersonal s
      (.error "INVALID_MESSAGE_TYPE" ("Unknown message type: " ++ showType data.type)) uid)

/-- `ConnectionManager.connect`: register the connection and a default `User`,
then unicast `CONNECTED`. Returns the new session id as well. -/
def connect (s : CM) : CM × List (Nat × Payload) :=
  let uid := s.next_id
  let user : User := { id := uid }
  let s :=
    { s with
        next_id := s.next_id + 1
        active_connections := s.active_connections ++ [uid]
        users := dset s.users uid user }
  (s, sendPersonal s (.connected uid) uid)

/-- `ConnectionManager.disconnect`. -/
def disconnect (s : CM) (uid : Nat) : CM × List (Nat × Payload) :=
  match dget s.users uid with
  | none => (s, [])
  | some u =>
      let (s, evs) := if u.room_id.isSome then leaveRoom s uid else (s, [])
      let s := { s with active_connections := s.active_connections.erase uid }
      let s := { s with users := derase s.users uid }
      (s, evs)

/-- One externally triggered operation on the manager: a new connection, a
transport-level disconnect, or one inbound request on a session (carrying the
room-code oracle draw used if the request creates a room). -/
inductive Op where
  | connect
  | disconnect (uid : Nat)
  | msg (uid : Nat) (data : Data) (code : String)
deriving DecidableEq, Repr

/-- Apply one operation. -/
def applyOp (s : CM) : Op → CM × List (Nat × Payload)
  | .connect => connect s
  | .disconnect uid => disconnect s uid
  | .msg uid data code => handleMessage s uid data code

/-- Run a sequence of operations from a state, keeping only the state. -/
def runOps (s : CM) : List Op → CM
  | [] => s
  | op :: rest => runOps (applyOp s op).1 rest

/-- The store's internal consistency invariant, maintained by every operation:
the three per-room maps share their key set, key lists are duplicate-free, no
live room has an empty membership, every code mapping points at a live room
whose stored `code` is that key, identifiers in use are below the fresh-id
counter, and no history exceeds 100 messages. -/
structure StoreInv (s : CM) : Prop where
  knRooms : (dkeys s.rooms).Nodup
  knMembers : (dkeys s.room_members).Nodup
  knMsgs : (dkeys s.room_messages).Nodup
  knCodes : (dkeys s.room_codes).Nodup
  membersKeys : ∀ r, (dget s.rooms r).isSome ↔ (dget s.room_members r).isSome
  msgsKeys : ∀ r, (dget s.rooms r).isSome ↔ (dget s.room_messages r).isSome
  membersNonempty : ∀ r ms, dget s.room_members r = some ms → ms ≠ []
  codesValid : ∀ c r, dget s.room_codes c = some r →
    ∃ rm, dget s.rooms r = some rm ∧ rm.code = c
  idsFresh : ∀ r rm, dget s.rooms r = some rm → r < s.next_id
  msgBound : ∀ r hist, dget s.room_messages r = some hist → hist.length ≤ 100

/-- A request payload for CREATE_ROOM with every optional field absent. -/
def createData : Data := { type := some "CREATE_ROOM" }

/-- A request payload for JOIN_ROOM carrying only a room code. -/
def joinData (c : String) : Data := { type := some "JOIN_ROOM", roomCode := some c }

/-- Trace: one connection that creates a room and is its sole member. -/
def opsSolo : List Op := [.connect, .msg 0 createData "ABCDEF"]

/-- Trace: two connections in one room (host 0 and guest 1). -/
def opsPair : List Op := [.connect, .connect, .msg 0 createData "ABCDEF",
  .msg 1 (joinData "ABCDEF") ""]

/-- Trace: two connections, only the first in a room. -/
def opsTri : List Op := [.connect, .connect, .msg 0 createData "ABCDEF"]

/-- Trace: the room-code generator draws the same code for two rooms. -/
def opsCollide : List Op := [.connect, .connect, .msg 0 createData "AAAAAA",
  .msg 1 createData "AAAAAA"]


@[simp]
theorem dkeys_nil : dkeys ([] : List (α × β)) = [] := rfl

@[simp]
theorem dkeys_cons (a : α) (b : β) (m : List (α × β)) :
    dkeys ((a, b) :: m) = a :: dkeys m := rfl

theorem dget_dset_self [DecidableEq α] (m : List (α × β)) (k : α) (v : β) :
    dget (dset m k v) k = some v := by
  induction m with
  | nil => simp [dget, dset]
  | cons p rest ih =>
    obtain ⟨ka, va⟩ := p
    by_cases h : ka = k
    · subst h; simp [dget, dset]
    · simp [dget, dset, h, ih]

theorem dget_dset_ne [DecidableEq α] (m : List (α × β)) (k k' : α) (v : β) (h : k' ≠ k) :
    dget (dset m k v) k' = dget m k' := by
  induction m with
  | nil => simp [dget, dset, Ne.symm h]
  | cons p rest ih =>
    obtain ⟨ka, va⟩ := p
    by_cases hk : ka = k
    · subst hk
      simp [dset, dget, Ne.symm h]
    · by_cases hk' : ka = k'
      · subst hk'
        simp [dset, hk, dget]
      · simp [dset, hk, dget, hk', ih]

theorem mem_dkeys_iff_isSome [DecidableEq α] (m : List (α × β)) (k : α) :
    k ∈ dkeys m ↔ (dget m k).isSome := by
  induction m with
  | nil => simp [dget]
  | cons p rest ih =>
    obtain ⟨ka, va⟩ := p
    by_cases hk : ka = k
    · simp [dget, hk]
    · simp [dget, hk, Ne.symm hk, ih]

theorem dget_eq_none_of_not_mem [DecidableEq α] (m : List (α × β)) (k : α)
    (h : k ∉ dkeys m) : dget m k = none := by
  have h2 := (mem_dkeys_iff_isSome m k).not.mp h
  cases hg : dget m k with
  | none => rfl
  | some v => rw [hg] at h2; simp at h2

theorem derase_of_not_mem [DecidableEq α] (m : List (α × β)) (k : α)
    (h : k ∉ dkeys m) : derase m k = m := by
  induction m with
  | nil => simp [derase]
  | cons p rest ih =>
    obtain ⟨ka, va⟩ := p
    simp only [dkeys_cons, List.mem_cons, not_or] at h
    simp [derase, Ne.symm h.1, ih h.2]

theorem dget_derase_ne [DecidableEq α] (m : List (α × β)) (k k' : α) (h : k' ≠ k) :
    dget (derase m k) k' = dget m k' := by
  induction m with
  | nil => simp [derase]
  | cons p rest ih =>
    obtain ⟨ka, va⟩ := p
    by_cases hk : ka = k
    · subst hk
      simp [derase, dget, Ne.symm h]
    · by_cases hk' : ka = k'
      · subst hk'
        simp [derase, hk, dget]
      · simp [derase, hk, dget, hk', ih]

theorem derase_sublist [DecidableEq α] (m : List (α × β)) (k : α) :
    List.Sublist (derase m k) m := by
  induction m with
  | nil => simp [derase]
  | cons p rest ih =>
    obtain ⟨ka, va⟩ := p
    by_cases hk : ka = k
    · simp only [derase, if_pos hk]
      exact List.sublist_cons_self _ _
    · simp only [derase, if_neg hk]
      exact ih.cons₂ _

theorem nodup_dkeys_derase [DecidableEq α] (m : List (α × β)) (k : α)
    (h : (dkeys m).Nodup) : (dkeys (derase m k)).Nodup :=
  List.Nodup.sublist ((derase_sublist m k).map Prod.fst) h

theorem dget_derase_self [DecidableEq α] (m : List (α × β)) (k : α)
    (h : (dkeys m).Nodup) : dget (derase m k) k = none := by
  induction m with
  | nil => simp [derase, dget]
  | cons p rest ih =>
    obtain ⟨ka, va⟩ := p
    simp only [dkeys_cons, List.nodup_cons] at h
    by_cases hk : ka = k
    · subst hk
      simpa [derase] using dget_eq_none_of_not_mem rest ka h.1
    · simp [derase, hk, dget, hk, ih h.2]

theorem dkeys_dset [DecidableEq α] (m : List (α × β)) (k : α) (v : β) :
    dkeys (dset m k v) = if k ∈ dkeys m then dkeys m else dkeys m ++ [k] := by
  induction m with
  | nil => simp [dset]
  | cons p rest ih =>
    obtain ⟨ka, va⟩ := p
    by_cases hk : ka = k
    · subst hk
      simp [dset]
    · by_cases hm : k ∈ dkeys rest
      · simp only [hm, if_pos] at ih
        simp [dset, hk, List.mem_cons, hm, ih]
      · simp only [hm, if_neg, if_false] at ih
        simp [dset, hk, List.mem_cons, hm, Ne.symm hk, ih]

theorem nodup_dkeys_dset [DecidableEq α] (m : List (α × β)) (k : α) (v : β)
    (h : (dkeys m).Nodup) : (dkeys (dset m k v)).Nodup := by
  rw [dkeys_dset]
  by_cases hm : k ∈ dkeys m
  · simpa [hm]
  · simp [hm, List.nodup_append, h]

theorem isSome_dget_dset [DecidableEq α] (m : List (α × β)) (k k' : α) (v : β) :
    (dget (dset m k v) k').isSome ↔ (k' = k ∨ (dget m k').isSome) := by
  by_cases h : k' = k
  · subst h; simp [dget_dset_self]
  · simp [dget_dset_ne m k k' v h, h]

theorem dget_derase [DecidableEq α] (m : List (α × β)) (k k' : α)
    (h : (dkeys m).Nodup) :
    dget (derase m k) k' = if k' = k then none else dget m k' := by
  by_cases hk : k' = k
  · subst hk; simp [dget_derase_self m k' h]
  · simp [hk, dget_derase_ne m k k' hk]

theorem inv_cleanupRoom (s : CM) (rid : Nat)
    (h1 : (dkeys s.rooms).Nodup) (h2 : (dkeys s.room_members).Nodup)
    (h3 : (dkeys s.room_messages).Nodup) (h4 : (dkeys s.room_codes).Nodup)
    (h5 : ∀ r, (dget s.rooms r).isSome ↔ (dget s.room_members r).isSome)
    (h6 : ∀ r, (dget s.rooms r).isSome ↔ (dget s.room_messages r).isSome)
    (h7 : ∀ r ms, r ≠ rid → dget s.room_members r = some ms → ms ≠ [])
    (h8 : ∀ c r, dget s.room_codes c = some r →
      ∃ rm, dget s.rooms r = some rm ∧ rm.code = c)
    (h9 : ∀ r rm, dget s.rooms r = some rm → r < s.next_id)
    (h10 : ∀ r hist, dget s.room_messages r = some hist → hist.length ≤ 100) :
    StoreInv (cleanupRoom s rid) := by
  unfold cleanupRoom
  cases hroom : dget s.rooms rid with
  | some room =>
    simp only
    constructor
    · exact nodup_dkeys_derase _ _ h1
    · exact nodup_dkeys_derase _ _ h2
    · exact nodup_dkeys_derase _ _ h3
    · exact nodup_dkeys_derase _ _ h4
    · intro r
      rw [dget_derase _ rid r h1, dget_derase _ rid r h2]
      by_cases hr : r = rid
      · simp [hr]
      · simp [hr, h5 r]
    · intro r
      rw [dget_derase _ rid r h1, dget_derase _ rid r h3]
      by_cases hr : r = rid
      · simp [hr]
      · simp [hr, h6 r]
    · intro r ms hms
      rw [dget_derase _ rid r h2] at hms
      by_cases hr : r = rid
      · simp [hr] at hms
      · rw [if_neg hr] at hms
        exact h7 r ms hr hms
    · intro c r hc
      rw [dget_derase _ room.code c h4] at hc
      by_cases hcc : c = room.code
      · simp [hcc] at hc
      · rw [if_neg hcc] at hc
        obtain ⟨rm, hrm, hcode⟩ := h8 c r hc
        have hr : r ≠ rid := by
          intro e
          subst e
          rw [hroom] at hrm
          cases hrm
          exact hcc hcode.symm
        refine ⟨rm, ?_, hcode⟩
        rw [dget_derase _ rid r h1, if_neg hr]
        exact hrm
    · intro r rm hr
      rw [dget_derase _ rid r h1] at hr
      by_cases he : r = rid
      · simp [he] at hr
      · rw [if_neg he] at hr
        exact h9 r rm hr
    · intro r hist hr
      rw [dget_derase _ rid r h3] at hr
      by_cases he : r = rid
      · simp [he] at hr
      · rw [if_neg he] at hr
        exact h10 r hist hr
  | none =>
    simp only
    have hmem : dget s.room_members rid = none := by
      have := h5 rid
      rw [hroom] at this
      simp at this
      cases hg : dget s.room_members rid with
      | none => rfl
      | some v => rw [hg] at this; simp at this
    have hmsg : dget s.room_messages rid = none := by
      have := h6 rid
      rw [hroom] at this
      simp at this
      cases hg : dget s.room_messages rid with
      | none => rfl
      | some v => rw [hg] at this; simp at this
    rw [derase_of_not_mem s.rooms rid (by
          rw [mem_dkeys_iff_isSome, hroom]; simp),
        derase_of_not_mem s.room_members rid (by
          rw [mem_dkeys_iff_isSome, hmem]; simp),
        derase_of_not_mem s.room_messages rid (by
          rw [mem_dkeys_iff_isSome, hmsg]; simp)]
    exact ⟨h1, h2, h3, h4, h5, h6,
      fun r ms hms => by
        by_cases hr : r = rid
        · subst hr; rw [hmem] at hms; cases hms
        · exact h7 r ms hr hms,
      h8, h9, h10⟩

theorem storeInv_users_conns (s : CM) (us : List (Nat × User)) (ac : List Nat)
    (h : StoreInv s) :
    StoreInv { s with users := us, active_connections := ac } :=
  ⟨h.knRooms, h.knMembers, h.knMsgs, h.knCodes, h.membersKeys, h.msgsKeys,
   h.membersNonempty, h.codesValid, h.idsFresh, h.msgBound⟩

theorem inv_leaveRoom (s : CM) (uid : Nat) (h : StoreInv s) :
    StoreInv (leaveRoom s uid).1 := by
  unfold leaveRoom
  cases hu : dget s.users uid with
  | none => exact h
  | some u =>
    dsimp only
    cases hrid : u.room_id with
    | none => exact h
    | some rid =>
      dsimp only
      cases hmem : dget s.room_members rid with
      | none =>
        dsimp only [hmem]
        rw [if_neg (by rw [hmem]; intro hx; cases hx)]
        exact storeInv_users_conns s _ _ h
      | some mem =>
        dsimp only
        by_cases hin : uid ∈ mem
        · rw [if_pos hin]
          dsimp only
          rw [dget_dset_self]
          by_cases he : mem.erase uid = []
          · rw [if_pos (by rw [he])]
            apply inv_cleanupRoom
            · exact h.knRooms
            · exact nodup_dkeys_dset _ _ _ h.knMembers
            · exact h.knMsgs
            · exact h.knCodes
            · intro r
              by_cases hr : r = rid
              · subst hr
                rw [dget_dset_self]
                simp [(h.membersKeys r).mpr (by rw [hmem]; simp)]
              · rw [dget_dset_ne _ _ _ _ hr]
                exact h.membersKeys r
            · exact h.msgsKeys
            · intro r ms hr hms
              rw [dget_dset_ne _ _ _ _ hr] at hms
              exact h.membersNonempty r ms hms
            · exact h.codesValid
            · exact h.idsFresh
            · exact h.msgBound
          · rw [if_neg (by intro hx; injection hx with hx; exact he hx)]
            refine ⟨h.knRooms, nodup_dkeys_dset _ _ _ h.knMembers, h.knMsgs, h.knCodes, ?_,
              h.msgsKeys, ?_, h.codesValid, h.idsFresh, h.msgBound⟩
            · intro r
              by_cases hr : r = rid
              · subst hr
                rw [dget_dset_self]
                simp [(h.membersKeys r).mpr (by rw [hmem]; simp)]
              · rw [dget_dset_ne _ _ _ _ hr]
                exact h.membersKeys r
            · intro r ms hms
              by_cases hr : r = rid
              · subst hr
                rw [dget_dset_self] at hms
                injection hms with hms
                rw [← hms]
                exact he
              · rw [dget_dset_ne _ _ _ _ hr] at hms
                exact h.membersNonempty r ms hms
        · rw [if_neg hin]
          rw [if_neg (by rw [hmem]; intro hx; cases hx; exact h.membersNonempty rid [] hmem rfl)]
          exact storeInv_users_conns s _ _ h

theorem storeInv_users_conns_nid (s : CM) (us : List (Nat × User)) (ac : List Nat)
    (n : Nat) (hn : s.next_id ≤ n) (h : StoreInv s) :
    StoreInv { s with users := us, active_connections := ac, next_id := n } :=
  ⟨h.knRooms, h.knMembers, h.knMsgs, h.knCodes, h.membersKeys, h.msgsKeys,
   h.membersNonempty, h.codesValid,
   fun r rm hr => lt_of_lt_of_le (h.idsFresh r rm hr) hn, h.msgBound⟩

theorem inv_createRoom (s : CM) (uid : Nat) (data : Data) (code : String)
    (h : StoreInv s) : StoreInv (createRoom s uid data code).1 := by
  unfold createRoom
  cases hu : dget s.users uid with
  | none => exact h
  | some u0 =>
    dsimp only
    have hL : StoreInv (if u0.room_id.isSome then leaveRoom s uid else (s, [])).1 := by
      by_cases hr : u0.room_id.isSome
      · rw [if_pos hr]; exact inv_leaveRoom s uid h
      · rw [if_neg hr]; exact h
    rcases hpair : (if u0.room_id.isSome then leaveRoom s uid else (s, [])) with ⟨s1, evsL⟩
    rw [hpair] at hL
    dsimp only at hL ⊢
    cases hu2 : dget s1.users uid with
    | none => exact hL
    | some u =>
      dsimp only
      refine ⟨nodup_dkeys_dset _ _ _ hL.knRooms, nodup_dkeys_dset _ _ _ hL.knMembers,
        nodup_dkeys_dset _ _ _ hL.knMsgs, nodup_dkeys_dset _ _ _ hL.knCodes,
        ?_, ?_, ?_, ?_, ?_, ?_⟩
      · intro r
        rw [Option.isSome_iff_exists, Option.isSome_iff_exists] at *
        constructor
        · rintro ⟨rm, hrm⟩
          by_cases hr : r = s1.next_id
          · subst hr
            exact ⟨[uid], dget_dset_self _ _ _⟩
          · rw [dget_dset_ne _ _ _ _ hr] at hrm
            have := (hL.membersKeys r).mp (by rw [hrm]; rfl)
            rw [Option.isSome_iff_exists] at this
            obtain ⟨ms, hms⟩ := this
            exact ⟨ms, by rw [dget_dset_ne _ _ _ _ hr]; exact hms⟩
        · rintro ⟨ms, hms⟩
          by_cases hr : r = s1.next_id
          · subst hr
            exact ⟨_, dget_dset_self _ _ _⟩
          · rw [dget_dset_ne _ _ _ _ hr] at hms
            have := (hL.membersKeys r).mpr (by rw [hms]; rfl)
            rw [Option.isSome_iff_exists] at this
            obtain ⟨rm, hrm⟩ := this
            exact ⟨rm, by rw [dget_dset_ne _ _ _ _ hr]; exact hrm⟩
      · intro r
        rw [Option.isSome_iff_exists, Option.isSome_iff_exists] at *
        constructor
        · rintro ⟨rm, hrm⟩
          by_cases hr : r = s1.next_id
          · subst hr
            exact ⟨[], dget_dset_self _ _ _⟩
          · rw [dget_dset_ne _ _ _ _ hr] at hrm
            have := (hL.msgsKeys r).mp (by rw [hrm]; rfl)
            rw [Option.isSome_iff_exists] at this
            obtain ⟨ms, hms⟩ := this
            exact ⟨ms, by rw [dget_dset_ne _ _ _ _ hr]; exact hms⟩
        · rintro ⟨ms, hms⟩
          by_cases hr : r = s1.next_id
          · subst hr
            exact ⟨_, dget_dset_self _ _ _⟩
          · rw [dget_dset_ne _ _ _ _ hr] at hms
            have := (hL.msgsKeys r).mpr (by rw [hms]; rfl)
            rw [Option.isSome_iff_exists] at this
            obtain ⟨rm, hrm⟩ := this
            exact ⟨rm, by rw [dget_dset_ne _ _ _ _ hr]; exact hrm⟩
      · intro r ms hms
        by_cases hr : r = s1.next_id
        · subst hr
          rw [dget_dset_self] at hms
          injection hms with hms
          rw [← hms]
          simp
        · rw [dget_dset_ne _ _ _ _ hr] at hms
          exact hL.membersNonempty r ms hms
      · intro c r hc
        by_cases hcc : c = code
        · subst hcc
          rw [dget_dset_self] at hc
          injection hc with hc
          subst hc
          exact ⟨_, dget_dset_self _ _ _, rfl⟩
        · rw [dget_dset_ne _ _ _ _ hcc] at hc
          obtain ⟨rm, hrm, hcode⟩ := hL.codesValid c r hc
          have hr : r ≠ s1.next_id := by
            intro e
            exact absurd (hL.idsFresh r rm hrm) (by rw [e]; exact lt_irrefl _)
          exact ⟨rm, by rw [dget_dset_ne _ _ _ _ hr]; exact hrm, hcode⟩
      · intro r rm hrm
        by_cases hr : r = s1.next_id
        · subst hr
          exact Nat.lt_succ_self _
        · rw [dget_dset_ne _ _ _ _ hr] at hrm
          exact Nat.lt_succ_of_lt (hL.idsFresh r rm hrm)
      · intro r hist hr
        by_cases he : r = s1.next_id
        · subst he
          rw [dget_dset_self] at hr
          injection hr with hr
          rw [← hr]
          simp
        · rw [dget_dset_ne _ _ _ _ he] at hr
          exact hL.msgBound r hist hr

theorem inv_joinRoom (s : CM) (uid : Nat) (data : Data) (h : StoreInv s) :
    StoreInv (joinRoom s uid data).1 := by
  unfold joinRoom
  cases hu : dget s.users uid with
  | none => exact h
  | some u0 =>
    dsimp only
    cases hcode : dget s.room_codes (pyUpper (data.roomCode.getD "")) with
    | none => exact h
    | some rid =>
      dsimp only
      cases hroom : dget s.rooms rid with
      | none => exact h
      | some room =>
        dsimp only
        have hL : StoreInv (if u0.room_id.isSome then leaveRoom s uid else (s, [])).1 := by
          by_cases hr : u0.room_id.isSome
          · rw [if_pos hr]; exact inv_leaveRoom s uid h
          · rw [if_neg hr]; exact h
        rcases hpair : (if u0.room_id.isSome then leaveRoom s uid else (s, [])) with ⟨s1, evsL⟩
        rw [hpair] at hL
        dsimp only at hL ⊢
        cases hu2 : dget s1.users uid with
        | none => exact hL
        | some u =>
          dsimp only
          cases hmem : dget s1.room_members rid with
          | none => exact storeInv_users_conns s1 _ _ hL
          | some mem =>
            dsimp only
            refine ⟨hL.knRooms, nodup_dkeys_dset _ _ _ hL.knMembers, hL.knMsgs,
              hL.knCodes, ?_, hL.msgsKeys, ?_, hL.codesValid, hL.idsFresh, hL.msgBound⟩
            · intro r
              by_cases hr : r = rid
              · subst hr
                rw [dget_dset_self]
                simp [(hL.membersKeys r).mpr (by rw [hmem]; rfl)]
              · rw [dget_dset_ne _ _ _ _ hr]
                exact hL.membersKeys r
            · intro r ms hms
              by_cases hr : r = rid
              · subst hr
                rw [dget_dset_self] at hms
                injection hms with hms
                rw [← hms]
                by_cases hin : uid ∈ mem
                · rw [if_pos hin]
                  exact List.ne_nil_of_mem hin
                · rw [if_neg hin]
                  simp
              · rw [dget_dset_ne _ _ _ _ hr] at hms
                exact hL.membersNonempty r ms hms

theorem trimHist_len_le (hist : List Message) (m : Message) :
    (if (hist ++ [m]).length > 100 then
       (hist ++ [m]).drop ((hist ++ [m]).length - 100) else hist ++ [m]).length ≤ 100 := by
  by_cases hlen : (hist ++ [m]).length > 100
  · rw [if_pos hlen, List.length_drop]
    omega
  · rw [if_neg hlen]
    omega

theorem inv_sendMessage (s : CM) (uid : Nat) (data : Data) (h : StoreInv s) :
    StoreInv (sendMessage s uid data).1 := by
  unfold sendMessage
  cases hu : dget s.users uid with
  | none => exact h
  | some u =>
    dsimp only
    cases hrid : u.room_id with
    | none => exact h
    | some rid =>
      dsimp only
      by_cases ht : pyStrip (data.text.getD "") = ""
      · rw [if_pos ht]
        exact h
      · rw [if_neg ht]
        dsimp only
        cases hhist : dget s.room_messages rid with
        | none =>
          dsimp only
          exact storeInv_users_conns_nid s s.users s.active_connections _
            (Nat.le_succ _) h
        | some hist =>
          dsimp only
          have hb : StoreInv { s with next_id := s.next_id + 1 } :=
            storeInv_users_conns_nid s s.users s.active_connections _
              (Nat.le_succ _) h
          refine ⟨hb.knRooms, hb.knMembers, nodup_dkeys_dset _ _ _ hb.knMsgs,
            hb.knCodes, hb.membersKeys, ?_, hb.membersNonempty, hb.codesValid,
            hb.idsFresh, ?_⟩
          · intro r
            by_cases hr : r = rid
            · subst hr
              rw [dget_dset_self]
              simp [(h.msgsKeys r).mpr (by rw [hhist]; rfl)]
            · rw [dget_dset_ne _ _ _ _ hr]
              exact hb.msgsKeys r
          · intro r hist2 hr2
            by_cases hr : r = rid
            · subst hr
              rw [dget_dset_self] at hr2
              injection hr2 with hr2
              rw [← hr2]
              exact trimHist_len_le _ _
            · rw [dget_dset_ne _ _ _ _ hr] at hr2
              exact hb.msgBound r hist2 hr2

theorem inv_updateProfile (s : CM) (uid : Nat) (data : Data) (h : StoreInv s) :
    StoreInv (updateProfile s uid data).1 := by
  unfold updateProfile
  cases hu : dget s.users uid with
  | none => exact h
  | some u =>
    dsimp only
    exact storeInv_users_conns s _ _ h

theorem getRoomInfo_state (s : CM) (uid : Nat) : (getRoomInfo s uid).1 = s := by
  unfold getRoomInfo
  cases dget s.users uid with
  | none => rfl
  | some u =>
    dsimp only
    cases u.room_id with
    | none => rfl
    | some rid =>
      dsimp only
      cases dget s.rooms rid with
      | none => rfl
      | some room => rfl

theorem inv_getRoomInfo (s : CM) (uid : Nat) (h : StoreInv s) :
    StoreInv (getRoomInfo s uid).1 := by
  rw [getRoomInfo_state]
  exact h

theorem inv_connect (s : CM) (h : StoreInv s) : StoreInv (connect s).1 := by
  unfold connect
  exact storeInv_users_conns_nid s _ _ _ (Nat.le_succ _) h

theorem inv_disconnect (s : CM) (uid : Nat) (h : StoreInv s) :
    StoreInv (disconnect s uid).1 := by
  unfold disconnect
  cases hu : dget s.users uid with
  | none => exact h
  | some u =>
    dsimp only
    have hL : StoreInv (if u.room_id.isSome then leaveRoom s uid else (s, [])).1 := by
      by_cases hr : u.room_id.isSome
      · rw [if_pos hr]; exact inv_leaveRoom s uid h
      · rw [if_neg hr]; exact h
    rcases hpair : (if u.room_id.isSome then leaveRoom s uid else (s, [])) with ⟨s1, evs⟩
    rw [hpair] at hL
    dsimp only at hL ⊢
    exact storeInv_users_conns s1 _ _ hL

theorem inv_handleMessage (s : CM) (uid : Nat) (data : Data) (code : String)
    (h : StoreInv s) : StoreInv (handleMessage s uid data code).1 := by
  unfold handleMessage
  by_cases h1 : data.type = some "CREATE_ROOM"
  · rw [if_pos h1]; exact inv_createRoom s uid data code h
  rw [if_neg h1]
  by_cases h2 : data.type = some "JOIN_ROOM"
  · rw [if_pos h2]
    have hJ := inv_joinRoom s uid data h
    rcases hpair : joinRoom s uid data with ⟨s1, evs, exn⟩
    rw [hpair] at hJ
    dsimp only at hJ ⊢
    cases exn with
    | none => exact hJ
    | some e => exact hJ
  rw [if_neg h2]
  by_cases h3 : data.type = some "LEAVE_ROOM"
  · rw [if_pos h3]; exact inv_leaveRoom s uid h
  rw [if_neg h3]
  by_cases h4 : data.type = some "SEND_MESSAGE"
  · rw [if_pos h4]; exact inv_sendMessage s uid data h
  rw [if_neg h4]
  by_cases h5 : data.type = some "UPDATE_PROFILE"
  · rw [if_pos h5]; exact inv_updateProfile s uid data h
  rw [if_neg h5]
  by_cases h6 : data.type = some "GET_ROOM_INFO"
  · rw [if_pos h6]; exact inv_getRoomInfo s uid h
  rw [if_neg h6]
  by_cases h7 : data.type = some "PING"
  · rw [if_pos h7]; exact h
  rw [if_neg h7]
  exact h

theorem inv_applyOp (s : CM) (op : Op) (h : StoreInv s) : StoreInv (applyOp s op).1 := by
  cases op with
  | connect => exact inv_connect s h
  | disconnect uid => exact inv_disconnect s uid h
  | msg uid data code => exact inv_handleMessage s uid data code h

theorem inv_init : StoreInv CM.init := by
  refine ⟨?_, ?_, ?_, ?_, ?_, ?_, ?_, ?_, ?_, ?_⟩ <;> simp [CM.init, dget]

theorem inv_runOps (s : CM) (ops : List Op) (h : StoreInv s) : StoreInv (runOps s ops) := by
  induction ops generalizing s with
  | nil => exact h
  | cons op rest ih => exact ih _ (inv_applyOp s op h)

theorem sendPersonal_sent (s : CM) (p : Payload) (uid : Nat)
    (h : uid ∈ s.active_connections) : sendPersonal s p uid = [(uid, p)] := by
  simp [sendPersonal, h]

theorem mem_sendPersonal (s : CM) (p : Payload) (uid : Nat) (ev : Nat × Payload)
    (h : ev ∈ sendPersonal s p uid) : ev = (uid, p) := by
  unfold sendPersonal at h
  by_cases hc : uid ∈ s.active_connections
  · rw [if_pos hc] at h
    simpa using h
  · rw [if_neg hc] at h
    simp at h

theorem flatMap_sendPersonal (s : CM) (p : Payload) (l : List Nat)
    (h : ∀ m ∈ l, m ∈ s.active_connections) :
    l.flatMap (fun m => sendPersonal s p m) = l.map (fun m => (m, p)) := by
  induction l with
  | nil => simp
  | cons a rest ih =>
    simp only [List.flatMap_cons, List.map_cons]
    rw [sendPersonal_sent s p a (h a (List.mem_cons_self a rest)),
      ih (fun m hm => h m (List.mem_cons_of_mem a hm))]
    rfl

theorem mem_broadcast_payload (s : CM) (p : Payload) (rid : Nat) (ex : Option Nat)
    (ev : Nat × Payload) (h : ev ∈ broadcastToRoom s p rid ex) : ev.2 = p := by
  unfold broadcastToRoom at h
  cases hm : dget s.room_members rid with
  | none => rw [hm] at h; simp at h
  | some mem =>
    rw [hm] at h
    simp only [List.mem_flatMap] at h
    obtain ⟨m, _, hmem2⟩ := h
    rw [mem_sendPersonal s p m ev hmem2]

theorem broadcast_none_eq (s : CM) (p : Payload) (rid : Nat) (mem : List Nat)
    (hmem : dget s.room_members rid = some mem)
    (h : ∀ m ∈ mem, m ∈ s.active_connections) :
    broadcastToRoom s p rid none = mem.map (fun m => (m, p)) := by
  unfold broadcastToRoom
  rw [hmem]
  dsimp only
  have hf : (mem.filter fun m => !((none : Option Nat) == some m)) = mem := by
    apply List.filter_eq_self.mpr
    intro a _
    rfl
  rw [hf, flatMap_sendPersonal s p mem h]

theorem broadcast_exclude_eq (s : CM) (p : Payload) (rid : Nat) (e : Nat) (mem : List Nat)
    (hmem : dget s.room_members rid = some mem)
    (h : ∀ m ∈ mem, m ∈ s.active_connections) :
    broadcastToRoom s p rid (some e) =
      (mem.filter fun m => m ≠ e).map (fun m => (m, p)) := by
  unfold broadcastToRoom
  rw [hmem]
  dsimp only
  have hf : (mem.filter fun m => !((some e : Option Nat) == some m)) =
      (mem.filter fun m => m ≠ e) := by
    apply List.filter_congr
    intro a _
    by_cases he : e = a
    · subst he; simp
    · simp [he, Ne.symm he]
  rw [hf]
  exact flatMap_sendPersonal s p _ (fun m hm => h m (List.mem_of_mem_filter hm))

theorem leaveRoom_events_shape (s : CM) (uid : Nat) (ev : Nat × Payload)
    (h : ev ∈ (leaveRoom s uid).2) : ∃ a b, ev.2 = Payload.userLeft a b := by
  unfold leaveRoom at h
  cases hu : dget s.users uid with
  | none => rw [hu] at h; simp at h
  | some u =>
    rw [hu] at h
    dsimp only at h
    cases hrid : u.room_id with
    | none => rw [hrid] at h; simp at h
    | some rid =>
      rw [hrid] at h
      dsimp only at h
      cases hroom : dget s.rooms rid with
      | none =>
        rw [hroom] at h
        dsimp only at h
        simp at h
      | some room =>
        rw [hroom] at h
        dsimp only at h
        exact ⟨uid, u.name, mem_broadcast_payload _ _ _ _ _ h⟩

/-- C4: for a user with a current room, `_leave_room` removes the user from the
membership, emits USER_LEFT (with the user's id and name) to exactly the
remaining members — never to the leaver — clears the user's `room_id`, and only
then destroys the room (record, code mapping, membership, history) exactly when
the remaining membership is empty; on a user with no current room it is a
no-op returning the state unchanged and no events. -/
theorem leaveRoom_spec :
    (∀ (s : CM) (uid : Nat) (u : User) (rid : Nat) (room : Room) (mem : List Nat),
      (dkeys s.rooms).Nodup → (dkeys s.room_members).Nodup →
      (dkeys s.room_messages).Nodup → (dkeys s.room_codes).Nodup →
      dget s.users uid = some u → u.room_id = some rid →
      dget s.rooms rid = some room → dget s.room_members rid = some mem →
      mem.Nodup → uid ∈ mem → (∀ m ∈ mem, m ∈ s.active_connections) →
      ((leaveRoom s uid).2 =
          (mem.erase uid).map (fun m => (m, Payload.userLeft uid u.name)) ∧
       (∀ ev ∈ (leaveRoom s uid).2, ev.1 ≠ uid) ∧
       dget (leaveRoom s uid).1.users uid = some { u with room_id := none } ∧
       (mem.erase uid = [] →
          dget (leaveRoom s uid).1.rooms rid = none ∧
          dget (leaveRoom s uid).1.room_codes room.code = none ∧
          dget (leaveRoom s uid).1.room_members rid = none ∧
          dget (leaveRoom s uid).1.room_messages rid = none) ∧
       (mem.erase uid ≠ [] →
          dget (leaveRoom s uid).1.rooms rid = some room ∧
          dget (leaveRoom s uid).1.room_members rid = some (mem.erase uid)))) ∧
    (∀ (s : CM) (uid : Nat) (u : User),
      dget s.users uid = some u → u.room_id = none → leaveRoom s uid = (s, [])) := by
  constructor
  · intro s uid u rid room mem hkr hkm hkg hkc hu hrid hroom hmem hnd hin hconn
    unfold leaveRoom
    rw [hu]
    dsimp only
    rw [hrid]
    dsimp only
    rw [hroom, hmem]
    dsimp only
    rw [if_pos hin]
    dsimp only
    rw [dget_dset_self]
    have hbc : broadcastToRoom
        { s with room_members := dset s.room_members rid (mem.erase uid) }
        (Payload.userLeft uid u.name) rid none =
        (mem.erase uid).map (fun m => (m, Payload.userLeft uid u.name)) := by
      apply broadcast_none_eq
      · exact dget_dset_self _ _ _
      · intro m hm
        exact hconn m (List.erase_subset _ _ hm)
    by_cases he : mem.erase uid = []
    · rw [if_pos (by rw [he])]
      refine ⟨hbc, ?_, ?_, ?_, fun hne => absurd he hne⟩
      · intro ev hev
        rw [hbc] at hev
        simp only [List.mem_map] at hev
        obtain ⟨m, hm, hevm⟩ := hev
        rw [← hevm]
        intro hme
        exact hnd.not_mem_erase (by rw [← hme] at hm; exact hm)
      · unfold cleanupRoom
        rw [hroom]
        dsimp only
        exact dget_dset_self _ _ _
      · intro _
        unfold cleanupRoom
        rw [hroom]
        dsimp only
        refine ⟨?_, ?_, ?_, ?_⟩
        · exact dget_derase_self _ _ hkr
        · exact dget_derase_self _ _ hkc
        · exact dget_derase_self _ _ (nodup_dkeys_dset _ _ _ hkm)
        · exact dget_derase_self _ _ hkg
    · rw [if_neg (by intro hx; injection hx with hx; exact he hx)]
      refine ⟨hbc, ?_, ?_, fun hE => absurd hE he, ?_⟩
      · intro ev hev
        rw [hbc] at hev
        simp only [List.mem_map] at hev
        obtain ⟨m, hm, hevm⟩ := hev
        rw [← hevm]
        intro hme
        exact hnd.not_mem_erase (by rw [← hme] at hm; exact hm)
      · rw [dget_dset_self]
      · intro _
        exact ⟨hroom, dget_dset_self _ _ _⟩
  · intro s uid u hu hrid
    unfold leaveRoom
    rw [hu]
    dsimp only
    rw [hrid]

/-- C3: in every state reachable by connect/disconnect/request operations,
every live room has a nonempty membership list (a room emptied of its last
member is destroyed in the same step), and every entry of the code mapping
resolves to a room id that is present in the room store, with its membership
and message history also present. -/
theorem emptyRoomDestroyed_spec (ops : List Op) :
    (∀ rid r, dget (runOps CM.init ops).rooms rid = some r →
       ∃ ms, dget (runOps CM.init ops).room_members rid = some ms ∧ ms ≠ []) ∧
    (∀ c rid, dget (runOps CM.init ops).room_codes c = some rid →
       (dget (runOps CM.init ops).rooms rid).isSome ∧
       (dget (runOps CM.init ops).room_members rid).isSome ∧
       (dget (runOps CM.init ops).room_messages rid).isSome) := by
  have h := inv_runOps CM.init ops inv_init
  constructor
  · intro rid r hr
    have hs : (dget (runOps CM.init ops).room_members rid).isSome :=
      (h.membersKeys rid).mp (by rw [hr]; rfl)
    rw [Option.isSome_iff_exists] at hs
    obtain ⟨ms, hms⟩ := hs
    exact ⟨ms, hms, h.membersNonempty rid ms hms⟩
  · intro c rid hc
    obtain ⟨rm, hrm, _⟩ := h.codesValid c rid hc
    have h1 : (dget (runOps CM.init ops).rooms rid).isSome := by rw [hrm]; rfl
    exact ⟨h1, (h.membersKeys rid).mp h1, (h.msgsKeys rid).mp h1⟩

/-- C5: a room's stored history never exceeds 100 messages in any reachable
state; `_handle_send_message` appends the new message and evicts from the front
only (the new history is a suffix of the old history plus the new message, of
length `min (old+1) 100`); and a joining user is backfilled with exactly the
last `min 50 size` stored messages, a suffix of the history in chronological
order, inside the ROOM_JOINED event. -/
theorem messageHistory_spec :
    (∀ (ops : List Op) (rid : Nat) (hist : List Message),
       dget (runOps CM.init ops).room_messages rid = some hist → hist.length ≤ 100) ∧
    (∀ (s : CM) (uid : Nat) (data : Data) (u : User) (rid : Nat) (hist : List Message),
       dget s.users uid = some u → u.room_id = some rid →
       pyStrip (data.text.getD "") ≠ "" →
       dget s.room_messages rid = some hist →
       ∃ (m : Message) (newHist : List Message),
         m.text = pyStrip (data.text.getD "") ∧
         dget (sendMessage s uid data).1.room_messages rid = some newHist ∧
         List.IsSuffix newHist (hist ++ [m]) ∧
         newHist.length = min (hist.length + 1) 100) ∧
    (∀ (s : CM) (uid : Nat) (data : Data) (u : User) (rid : Nat) (room : Room)
        (mem : List Nat) (hist : List Message),
       dget s.users uid = some u → u.room_id = none →
       dget s.room_codes (pyUpper (data.roomCode.getD "")) = some rid →
       dget s.rooms rid = some room →
       dget s.room_members rid = some mem →
       dget s.room_messages rid = some hist →
       uid ∈ s.active_connections →
       ∃ mems, (joinRoom s uid data).2.1.head? =
           some (uid, Payload.roomJoined room mems (hist.drop (hist.length - 50))) ∧
         (hist.drop (hist.length - 50)).length = min 50 hist.length ∧
         List.IsSuffix (hist.drop (hist.length - 50)) hist) := by
  refine ⟨?_, ?_, ?_⟩
  · intro ops rid hist hh
    exact (inv_runOps CM.init ops inv_init).msgBound rid hist hh
  · intro s uid data u rid hist hu hrid htrim hhist
    unfold sendMessage
    rw [hu]
    dsimp only
    rw [hrid]
    dsimp only
    rw [if_neg htrim]
    dsimp only
    rw [hhist]
    dsimp only
    refine ⟨⟨s.next_id, rid, uid, u.name, pyStrip (data.text.getD ""), u.language⟩, _, rfl,
      dget_dset_self _ _ _, ?_, ?_⟩
    · split
      · exact List.drop_suffix _ _
      · exact List.suffix_refl _
    · split
      next hlen =>
        rw [List.length_drop]
        simp only [List.length_append, List.length_cons, List.length_nil] at hlen ⊢
        omega
      next hlen =>
        simp only [List.length_append, List.length_cons, List.length_nil] at hlen ⊢
        omega
  · intro s uid data u rid room mem hist hu hrid hcode hroom hmem hhist hconn
    unfold joinRoom
    rw [hu]
    dsimp only
    rw [hcode]
    dsimp only
    rw [hroom]
    dsimp only
    rw [hrid]
    rw [if_neg (by simp)]
    rw [hu]
    try dsimp only
    rw [hmem]
    try dsimp only
    rw [hhist]
    try dsimp only
    refine Exists.intro (List.filterMap
        (fun mid =>
          Option.map (fun mu => User.to_member mu (mid == room.host_id))
            (dget
              (dset s.users uid
                { id := u.id, name := data.userName.getD "Guest",
                  language := data.language.getD "en", room_id := some rid })
              mid))
        (if uid ∈ mem then mem else mem ++ [uid])) ⟨?_, ?_, ?_⟩
    · simp only [List.nil_append, Option.getD_some, sendPersonal, hconn, if_pos,
        List.cons_append, List.head?_cons, if_true]
    · rw [List.length_drop]
      omega
    · exact List.drop_suffix _ _

theorem broadcast_none_mem (s : CM) (p : Payload) (rid : Nat) (mem : List Nat) (m : Nat)
    (hmem : dget s.room_members rid = some mem) (hm : m ∈ mem)
    (hc : m ∈ s.active_connections) : (m, p) ∈ broadcastToRoom s p rid none := by
  unfold broadcastToRoom
  rw [hmem]
  dsimp only
  rw [List.mem_flatMap]
  refine ⟨m, ?_, ?_⟩
  · exact List.mem_filter.mpr ⟨hm, rfl⟩
  · rw [sendPersonal_sent s p m hc]
    exact List.mem_singleton.mpr rfl

/-- C6: send_message with no current room returns a NOT_IN_ROOM error unicast
to the sender and leaves the state unchanged; text that is empty after
stripping produces no event and no state change; otherwise exactly one message
carrying the sender's id, name, language and the stripped text is appended to
the room history and broadcast as NEW_MESSAGE to every room member, including
the sender. -/
theorem sendMessage_spec :
    (∀ (s : CM) (uid : Nat) (data : Data) (u : User),
       dget s.users uid = some u → u.room_id = none → uid ∈ s.active_connections →
       sendMessage s uid data =
         (s, [(uid, Payload.error "NOT_IN_ROOM" "You must join a room first")])) ∧
    (∀ (s : CM) (uid : Nat) (data : Data) (u : User) (rid : Nat),
       dget s.users uid = some u → u.room_id = some rid →
       pyStrip (data.text.getD "") = "" → sendMessage s uid data = (s, [])) ∧
    (∀ (s : CM) (uid : Nat) (data : Data) (u : User) (rid : Nat) (mem : List Nat)
        (hist : List Message),
       dget s.users uid = some u → u.room_id = some rid →
       pyStrip (data.text.getD "") ≠ "" →
       dget s.room_members rid = some mem →
       dget s.room_messages rid = some hist →
       (∀ m ∈ mem, m ∈ s.active_connections) →
       ∃ msg : Message,
         msg.sender_id = uid ∧ msg.sender_name = u.name ∧
         msg.source_lang = u.language ∧ msg.text = pyStrip (data.text.getD "") ∧
         msg.room_id = rid ∧
         dget (sendMessage s uid data).1.room_messages rid =
           some (if (hist ++ [msg]).length > 100
                 then (hist ++ [msg]).drop ((hist ++ [msg]).length - 100)
                 else hist ++ [msg]) ∧
         (sendMessage s uid data).2 = mem.map (fun m => (m, Payload.newMessage msg)) ∧
         (uid ∈ mem → (uid, Payload.newMessage msg) ∈ (sendMessage s uid data).2)) := by
  refine ⟨?_, ?_, ?_⟩
  · intro s uid data u hu hrid hconn
    unfold sendMessage
    rw [hu]
    dsimp only
    rw [hrid]
    dsimp only
    rw [sendPersonal_sent s _ uid hconn]
  · intro s uid data u rid hu hrid htrim
    unfold sendMessage
    rw [hu]
    dsimp only
    rw [hrid]
    dsimp only
    rw [if_pos htrim]
  · intro s uid data u rid mem hist hu hrid htrim hmem hhist hconn
    unfold sendMessage
    rw [hu]
    dsimp only
    rw [hrid]
    dsimp only
    rw [if_neg htrim]
    dsimp only
    rw [hhist]
    dsimp only
    refine Exists.intro
      ⟨s.next_id, rid, uid, u.name, pyStrip (data.text.getD ""), u.language⟩
      ⟨rfl, rfl, rfl, rfl, rfl, dget_dset_self _ _ _, ?_, ?_⟩
    · apply broadcast_none_eq
      · exact hmem
      · exact hconn
    · intro hin
      exact broadcast_none_mem _ _ _ mem uid hmem hin (hconn uid hin)

/-- C7 (amended): update_profile overwrites exactly the attributes whose
supplied value is truthy (present and non-empty); it always sends the updated
profile back to the requester first; and it broadcasts a member-update
notification to the other room members (excluding the requester) precisely when
the user is in a room and a truthy name differing from the old name was
supplied — a language-only change, an empty name, or an unchanged name triggers
no room broadcast. -/
theorem updateProfile_spec :
    ∀ (s : CM) (uid : Nat) (data : Data) (u u' : User),
      dget s.users uid = some u → uid ∈ s.active_connections →
      u' = { u with
              name := if truthy data.name then data.name.getD "" else u.name,
              language := if truthy data.language then data.language.getD "" else u.language } →
      (dget (updateProfile s uid data).1.users uid = some u' ∧
       (updateProfile s uid data).2.head? =
         some (uid, Payload.profileUpdated u'.to_member) ∧
       ((u.room_id = none ∨ truthy data.name = false ∨ data.name.getD "" = u.name) →
          (updateProfile s uid data).2 = [(uid, Payload.profileUpdated u'.to_member)]) ∧
       (∀ (rid : Nat) (mem : List Nat),
          u.room_id = some rid → truthy data.name = true → data.name.getD "" ≠ u.name →
          dget s.room_members rid = some mem →
          (∀ m ∈ mem, m ∈ s.active_connections) →
          (updateProfile s uid data).2 =
            (uid, Payload.profileUpdated u'.to_member) ::
              (mem.filter fun m => m ≠ uid).map
                (fun m => (m, Payload.userJoined u'.to_member true)))) := by
  intro s uid data u u' hu hconn hu'
  have hru : u'.room_id = u.room_id := by rw [hu']
  unfold updateProfile
  rw [hu]
  dsimp only
  have hEq : (if truthy data.language = true then
      { (if truthy data.name = true then { u with name := data.name.getD "" } else u) with
          language := data.language.getD "" }
    else (if truthy data.name = true then { u with name := data.name.getD "" } else u)) = u' := by
    rw [hu']
    split_ifs <;> rfl
  rw [hEq]
  refine ⟨dget_dset_self _ _ _, ?_, ?_, ?_⟩
  · simp only [sendPersonal, hconn, if_true, List.singleton_append, List.cons_append,
      List.head?_cons]
  · intro hdisj
    rw [hru]
    cases hr : u.room_id with
    | none =>
      simp only [sendPersonal, hconn, if_true, List.singleton_append, List.append_nil]
    | some rid =>
      have hcond : ¬(truthy data.name ∧ data.name.getD "" ≠ u.name) := by
        rcases hdisj with h0 | h1 | h2
        · rw [h0] at hr; cases hr
        · intro hand
          have h3 := hand.1
          rw [h1] at h3
          cases h3
        · intro hand
          exact hand.2 h2
      dsimp only
      rw [if_neg hcond]
      simp only [sendPersonal, hconn, if_true, List.singleton_append, List.append_nil]
  · intro rid mem hrr htn' hne hmem hconn2
    rw [hru, hrr]
    dsimp only
    rw [if_pos (And.intro htn' hne)]
    rw [broadcast_exclude_eq _ _ _ _ mem]
    · simp only [sendPersonal, hconn, if_true, List.singleton_append]
    · exact hmem
    · exact hconn2

/-- C8: dispatch routes each recognized request type to exactly its handler; an
unrecognized type produces an INVALID_MESSAGE_TYPE error unicast to the
requester naming the unrecognized value; and an exception raised inside a
handler (the JOIN_ROOM KeyError) is converted into an INTERNAL_ERROR unicast to
the requester appended to the events already emitted, the session state being
whatever the handler left — dispatch always returns, never terminating the
session. -/
theorem handleMessage_spec :
    (∀ (s : CM) (uid : Nat) (data : Data) (code : String),
       data.type = some "CREATE_ROOM" →
       handleMessage s uid data code = createRoom s uid data code) ∧
    (∀ (s : CM) (uid : Nat) (data : Data) (code : String) (s1 : CM)
        (evs : List (Nat × Payload)),
       data.type = some "JOIN_ROOM" → joinRoom s uid data = (s1, evs, none) →
       handleMessage s uid data code = (s1, evs)) ∧
    (∀ (s : CM) (uid : Nat) (data : Data) (code : String) (s1 : CM)
        (evs : List (Nat × Payload)) (e : String),
       data.type = some "JOIN_ROOM" → joinRoom s uid data = (s1, evs, some e) →
       handleMessage s uid data code =
         (s1, evs ++ sendPersonal s1 (Payload.error "INTERNAL_ERROR" e) uid)) ∧
    (∀ (s : CM) (uid : Nat) (data : Data) (code : String),
       data.type = some "LEAVE_ROOM" →
       handleMessage s uid data code = leaveRoom s uid) ∧
    (∀ (s : CM) (uid : Nat) (data : Data) (code : String),
       data.type = some "SEND_MESSAGE" →
       handleMessage s uid data code = sendMessage s uid data) ∧
    (∀ (s : CM) (uid : Nat) (data : Data) (code : String),
       data.type = some "UPDATE_PROFILE" →
       handleMessage s uid data code = updateProfile s uid data) ∧
    (∀ (s : CM) (uid : Nat) (data : Data) (code : String),
       data.type = some "GET_ROOM_INFO" →
       handleMessage s uid data code = getRoomInfo s uid) ∧
    (∀ (s : CM) (uid : Nat) (data : Data) (code : String),
       data.type = some "PING" →
       handleMessage s uid data code = (s, sendPersonal s Payload.pong uid)) ∧
    (∀ (s : CM) (uid : Nat) (data : Data) (code : String),
       data.type ∉ ([some "CREATE_ROOM", some "JOIN_ROOM", some "LEAVE_ROOM",
         some "SEND_MESSAGE", some "UPDATE_PROFILE", some "GET_ROOM_INFO",
         some "PING"] : List (Option String)) →
       handleMessage s uid data code =
         (s, sendPersonal s
           (Payload.error "INVALID_MESSAGE_TYPE"
             ("Unknown message type: " ++ showType data.type)) uid)) := by
  refine ⟨?_, ?_, ?_, ?_, ?_, ?_, ?_, ?_, ?_⟩
  · intro s uid data code h
    unfold handleMessage
    rw [if_pos h]
  · intro s uid data code s1 evs h hj
    unfold handleMessage
    rw [if_neg (by rw [h]; decide), if_pos h, hj]
  · intro s uid data code s1 evs e h hj
    unfold handleMessage
    rw [if_neg (by rw [h]; decide), if_pos h, hj]
  · intro s uid data code h
    unfold handleMessage
    rw [h]
    rfl
  · intro s uid data code h
    unfold handleMessage
    rw [h]
    rfl
  · intro s uid data code h
    unfold handleMessage
    rw [h]
    rfl
  · intro s uid data code h
    unfold handleMessage
    rw [h]
    rfl
  · intro s uid data code h
    unfold handleMessage
    rw [h]
    rfl
  · intro s uid data code h
    simp only [List.mem_cons, List.mem_singleton, not_or] at h
    unfold handleMessage
    rw [if_neg h.1, if_neg h.2.1, if_neg h.2.2.1, if_neg h.2.2.2.1, if_neg h.2.2.2.2.1,
      if_neg h.2.2.2.2.2.1, if_neg h.2.2.2.2.2.2.1]

/-- C9: generated room codes are always 6 characters drawn from the uppercase
alphanumeric alphabet; join_room uppercases the supplied code before lookup, so
two codes differing only in case behave identically; an INVALID_ROOM_CODE error
is returned, with no state change, when the code resolves to no entry or to a
room id absent from the store; and when the code resolves to a live room, no
INVALID_ROOM_CODE event is ever emitted. -/
theorem joinRoom_code_spec :
    (∀ picks : Fin 6 → Fin 36,
       (genRoomCode picks).length = 6 ∧
       ∀ c ∈ (genRoomCode picks).toList, c.isUpper ∨ c.isDigit) ∧
    (∀ (s : CM) (uid : Nat) (data : Data) (c1 c2 : String),
       pyUpper c1 = pyUpper c2 →
       joinRoom s uid { data with roomCode := some c1 } =
         joinRoom s uid { data with roomCode := some c2 }) ∧
    (∀ (s : CM) (uid : Nat) (data : Data) (u : User),
       dget s.users uid = some u →
       dget s.room_codes (pyUpper (data.roomCode.getD "")) = none →
       joinRoom s uid data =
         (s, sendPersonal s (Payload.error "INVALID_ROOM_CODE" "Room not found") uid,
          none)) ∧
    (∀ (s : CM) (uid : Nat) (data : Data) (u : User) (rid : Nat),
       dget s.users uid = some u →
       dget s.room_codes (pyUpper (data.roomCode.getD "")) = some rid →
       dget s.rooms rid = none →
       joinRoom s uid data =
         (s, sendPersonal s (Payload.error "INVALID_ROOM_CODE" "Room not found") uid,
          none)) ∧
    (∀ (s : CM) (uid : Nat) (data : Data) (u : User) (rid : Nat) (room : Room),
       dget s.users uid = some u →
       dget s.room_codes (pyUpper (data.roomCode.getD "")) = some rid →
       dget s.rooms rid = some room →
       ∀ (uid' : Nat) (msgtext : String),
         (uid', Payload.error "INVALID_ROOM_CODE" msgtext) ∉ (joinRoom s uid data).2.1) := by
  refine ⟨?_, ?_, ?_, ?_, ?_⟩
  · intro picks
    constructor
    · show (String.mk ((List.finRange 6).map
        fun i => codeAlphabet.getD (picks i).1 'A')).length = 6
      rw [String.length]
      simp
    · intro c hc
      have hc2 : c ∈ (List.finRange 6).map fun i => codeAlphabet.getD (picks i).1 'A' := hc
      rw [List.mem_map] at hc2
      obtain ⟨i, _, hi⟩ := hc2
      have hall : ∀ j : Fin 36, (codeAlphabet.getD j.1 'A').isUpper ∨
          (codeAlphabet.getD j.1 'A').isDigit := by decide
      rw [← hi]
      exact hall (picks i)
  · intro s uid data c1 c2 hcc
    unfold joinRoom
    dsimp only [Option.getD_some]
    rw [hcc]
  · intro s uid data u hu hcode
    unfold joinRoom
    rw [hu]
    dsimp only
    rw [hcode]
  · intro s uid data u rid hu hcode hroom
    unfold joinRoom
    rw [hu]
    dsimp only
    rw [hcode]
    dsimp only
    rw [hroom]
  · intro s uid data u rid room hu hcode hroom uid' msgtext hmem
    unfold joinRoom at hmem
    rw [hu] at hmem
    dsimp only at hmem
    rw [hcode] at hmem
    dsimp only at hmem
    rw [hroom] at hmem
    dsimp only at hmem
    rcases hpair : (if u.room_id.isSome then leaveRoom s uid else (s, [])) with ⟨s1, evsL⟩
    rw [hpair] at hmem
    dsimp only at hmem
    have hevsL : ∀ ev ∈ evsL, ∃ a b, (ev : Nat × Payload).2 = Payload.userLeft a b := by
      intro ev hev
      by_cases hr : u.room_id.isSome
      · rw [if_pos hr] at hpair
        apply leaveRoom_events_shape s uid
        rw [hpair]
        exact hev
      · rw [if_neg hr] at hpair
        injection hpair with h1 h2
        rw [← h2] at hev
        simp at hev
    cases hu2 : dget s1.users uid with
    | none =>
      rw [hu2] at hmem
      dsimp only at hmem
      obtain ⟨a, b, hab⟩ := hevsL _ hmem
      cases hab
    | some u1 =>
      rw [hu2] at hmem
      dsimp only at hmem
      cases hmem2 : dget s1.room_members rid with
      | none =>
        rw [hmem2] at hmem
        dsimp only at hmem
        obtain ⟨a, b, hab⟩ := hevsL _ hmem
        cases hab
      | some mem =>
        rw [hmem2] at hmem
        dsimp only at hmem
        rw [List.mem_append, List.mem_append] at hmem
        rcases hmem with (hL | hJ) | hB
        · obtain ⟨a, b, hab⟩ := hevsL _ hL
          cases hab
        · have h2 := mem_sendPersonal _ _ _ _ hJ
          injection h2 with h21 h22
          cases h22
        · have h2 := mem_broadcast_payload _ _ _ _ _ hB
          simp at h2

/-- C2 (amended): create_room installs the freshly generated code without any
collision check; if the generated code equals a live room's code, the old room
stays live with that code, the new room also carries it, and the code-to-id
mapping is overwritten to point at the new room. -/
theorem createRoom_code_overwrite :
    ∀ (s : CM) (uid : Nat) (data : Data) (code : String) (u : User)
      (rid' : Nat) (room' : Room),
      dget s.users uid = some u → u.room_id = none →
      dget s.rooms rid' = some room' → room'.code = code → rid' ≠ s.next_id →
      (dget (createRoom s uid data code).1.rooms rid' = some room' ∧
       (dget (createRoom s uid data code).1.rooms s.next_id).map (fun r => r.code) =
         some code ∧
       dget (createRoom s uid data code).1.room_codes code = some s.next_id) := by
  intro s uid data code u rid' room' hu hnr hold hcode hfresh
  unfold createRoom
  rw [hu]
  dsimp only
  rw [hnr]
  rw [if_neg (by simp)]
  rw [hu]
  dsimp only
  refine ⟨?_, ?_, ?_⟩
  · rw [dget_dset_ne _ _ _ _ hfresh]
    exact hold
  · rw [dget_dset_self]
    rfl
  · exact dget_dset_self _ _ _

/-- C10 (amended): an absent payload field is replaced by its default —
roomName "New Room", hostName "Host", language "en" for CREATE_ROOM, and
userName "Guest", language "en" for JOIN_ROOM — and the operation proceeds as
with explicit values; a present field, even empty, is used as supplied. -/
theorem payloadDefaults_spec :
    (∀ (s : CM) (uid : Nat) (u : User) (code : String),
       dget s.users uid = some u → u.room_id = none →
       (dget (createRoom s uid { type := some "CREATE_ROOM" } code).1.rooms
           s.next_id).map (fun r => r.name) = some "New Room" ∧
       (dget (createRoom s uid { type := some "CREATE_ROOM" } code).1.users uid).map
           (fun v => (v.name, v.language)) = some ("Host", "en")) ∧
    (∀ (s : CM) (uid : Nat) (data : Data) (u : User) (rid : Nat) (room : Room)
        (mem : List Nat),
       data.userName = none → data.language = none →
       dget s.users uid = some u → u.room_id = none →
       dget s.room_codes (pyUpper (data.roomCode.getD "")) = some rid →
       dget s.rooms rid = some room →
       dget s.room_members rid = some mem →
       (dget (joinRoom s uid data).1.users uid).map (fun v => (v.name, v.language)) =
         some ("Guest", "en")) := by
  constructor
  · intro s uid u code hu hnr
    unfold createRoom
    rw [hu]
    dsimp only
    rw [hnr]
    rw [if_neg (by simp)]
    rw [hu]
    dsimp only
    rw [dget_dset_self, dget_dset_self]
    exact ⟨rfl, rfl⟩
  · intro s uid data u rid room mem hun hlang hu hnr hcode hroom hmem
    unfold joinRoom
    rw [hu]
    dsimp only
    rw [hcode]
    dsimp only
    rw [hroom]
    dsimp only
    rw [hnr]
    rw [if_neg (by simp)]
    rw [hu]
    try dsimp only
    rw [hmem]
    try dsimp only
    rw [dget_dset_self]
    rw [hun, hlang]
    rfl

/-- C1: the membership/current-room invariant is claimed to hold after every
operation sequence, in particular after a JOIN_ROOM naming the room the user is
already in. The code violates it: when the sole member of a room re-joins it by
its own code, `_handle_join_room` first leaves (destroying the room), then sets
the user's `room_id` to the now-dead room id and raises a `KeyError` at
`self.room_members[room_id]`, surfaced as an INTERNAL_ERROR. The final state
has `room_id = some 1` while room 1 is gone from every map. -/
theorem joinOwnSoloRoom_breaks_invariant :
    (dget (runOps CM.init (opsSolo ++ [Op.msg 0 (joinData "ABCDEF") ""])).users 0).map
        (fun v => v.room_id) = some (some 1) ∧
    dget (runOps CM.init (opsSolo ++ [Op.msg 0 (joinData "ABCDEF") ""])).rooms 1 = none ∧
    (handleMessage (runOps CM.init opsSolo) 0 (joinData "ABCDEF") "").2 =
      [(0, Payload.error "INTERNAL_ERROR" "KeyError: 1")] :=
  ⟨rfl, rfl, rfl⟩

/-- C2 counterexample: `generate_room_code` can draw the same code twice (here
the all-zero draws give "AAAAAA"), and `_handle_create_room` performs no
collision check: after two creations with the same generated code, rooms 2 and
3 are both live with code "AAAAAA", and the code mapping was silently
overwritten to point at room 3 — refuting the claimed retry-on-collision and
the no-duplicate-codes invariant. -/
theorem roomCode_collision_counterexample :
    genRoomCode (fun _ => (0 : Fin 36)) = "AAAAAA" ∧
    (dget (runOps CM.init opsCollide).rooms 2).map (fun r => r.code) = some "AAAAAA" ∧
    (dget (runOps CM.init opsCollide).rooms 3).map (fun r => r.code) = some "AAAAAA" ∧
    dget (runOps CM.init opsCollide).room_codes "AAAAAA" = some 3 :=
  ⟨rfl, rfl, rfl, rfl⟩

/-- C7 counterexample: UPDATE_PROFILE with `name` supplied as the empty string
does not overwrite the attribute (Python truthiness: `if name:`): the user keeps
the name "Guest" instead of "", refuting "overwrites exactly the User
attributes whose fields are supplied". -/
theorem updateProfile_emptyName_counterexample :
    (dget (updateProfile (runOps CM.init opsPair) 1 { name := some "" }).1.users 1).map
        (fun v => v.name) = some "Guest" ∧
    ¬ ((dget (updateProfile (runOps CM.init opsPair) 1 { name := some "" }).1.users 1).map
        (fun v => v.name) = some "") ∧
    (updateProfile (runOps CM.init opsPair) 1 { name := some "" }).2 =
      [(1, Payload.profileUpdated
        { id := 1, name := "Guest", language := "en", is_host := false })] :=
  ⟨rfl, by decide, rfl⟩

/-- C10 counterexample: a present-but-empty `roomName` is not replaced by the
default — `dict.get(key, default)` falls back only when the key is absent — so
CREATE_ROOM with `roomName: ""` yields a room literally named "", not
"New Room", refuting the claim for false-like present fields. -/
theorem createRoom_emptyName_counterexample :
    (dget (handleMessage (runOps CM.init [Op.connect]) 0
        { type := some "CREATE_ROOM", roomName := some "" } "ABCDEF").1.rooms 1).map
      (fun r => r.name) = some "" ∧
    ¬ ((dget (handleMessage (runOps CM.init [Op.connect]) 0
        { type := some "CREATE_ROOM", roomName := some "" } "ABCDEF").1.rooms 1).map
      (fun r => r.name) = some "New Room") :=
  ⟨rfl, by decide⟩

/-- Witness for C3 at a concrete trace. -/
theorem emptyRoomDestroyed_spec_witness :
    (∃ ms, dget (runOps CM.init opsSolo).room_members 1 = some ms ∧ ms ≠ []) ∧
    (dget (runOps CM.init opsSolo).rooms 1).isSome :=
  ⟨(emptyRoomDestroyed_spec opsSolo).1 1
      { id := 1, code := "ABCDEF", name := "New Room", host_id := 0 } rfl,
    ((emptyRoomDestroyed_spec opsSolo).2 "ABCDEF" 1 rfl).1⟩

/-- Witness for C4 at a concrete two-member room. -/
theorem leaveRoom_spec_witness :
    (leaveRoom (runOps CM.init opsPair) 0).2 = [(1, Payload.userLeft 0 "Host")] ∧
    dget (leaveRoom (runOps CM.init opsPair) 0).1.room_members 2 = some [1] := by
  have h := leaveRoom_spec.1 (runOps CM.init opsPair) 0
    { id := 0, name := "Host", language := "en", room_id := some 2 } 2
    { id := 2, code := "ABCDEF", name := "New Room", host_id := 0 } [0, 1]
    (by decide) (by decide) (by decide) (by decide) rfl rfl rfl rfl
    (by decide) (by decide) (by decide)
  refine ⟨?_, (h.2.2.2.2 (by decide)).2⟩
  rw [h.1]
  rfl

/-- Witness for C5 at concrete traces. -/
theorem messageHistory_spec_witness :
    (([] : List Message).length ≤ 100) ∧
    (∃ (m : Message) (newHist : List Message),
       m.text = "hi" ∧
       dget (sendMessage (runOps CM.init opsPair) 0
           { text := some " hi " }).1.room_messages 2 = some newHist ∧
       List.IsSuffix newHist ([] ++ [m]) ∧
       newHist.length = min (List.length ([] : List Message) + 1) 100) ∧
    (∃ mems, (joinRoom (runOps CM.init opsTri) 1 (joinData "abcdef")).2.1.head? =
         some (1, Payload.roomJoined
           { id := 2, code := "ABCDEF", name := "New Room", host_id := 0 } mems
           (([] : List Message).drop (List.length ([] : List Message) - 50))) ∧
       (([] : List Message).drop (List.length ([] : List Message) - 50)).length =
         min 50 (List.length ([] : List Message)) ∧
       List.IsSuffix (([] : List Message).drop (List.length ([] : List Message) - 50)) []) :=
  ⟨messageHistory_spec.1 opsPair 2 [] rfl,
   messageHistory_spec.2.1 (runOps CM.init opsPair) 0 { text := some " hi " }
     { id := 0, name := "Host", language := "en", room_id := some 2 } 2 []
     rfl rfl (by decide) rfl,
   messageHistory_spec.2.2 (runOps CM.init opsTri) 1 (joinData "abcdef")
     { id := 1, name := "Anonymous", language := "en", room_id := none } 2
     { id := 2, code := "ABCDEF", name := "New Room", host_id := 0 } [0] []
     rfl rfl rfl rfl rfl rfl (by decide)⟩

/-- Witness for C6 at concrete states. -/
theorem sendMessage_spec_witness :
    sendMessage (runOps CM.init opsTri) 1 { text := some "x" } =
      (runOps CM.init opsTri,
       [(1, Payload.error "NOT_IN_ROOM" "You must join a room first")]) ∧
    sendMessage (runOps CM.init opsPair) 0 { text := some "   " } =
      (runOps CM.init opsPair, []) ∧
    (∃ msg : Message, msg.sender_id = 0 ∧ msg.sender_name = "Host" ∧
       msg.source_lang = "en" ∧ msg.text = "hi" ∧ msg.room_id = 2 ∧
       dget (sendMessage (runOps CM.init opsPair) 0
           { text := some " hi " }).1.room_messages 2 =
         some (if (([] : List Message) ++ [msg]).length > 100
               then (([] : List Message) ++ [msg]).drop
                 ((([] : List Message) ++ [msg]).length - 100)
               else ([] : List Message) ++ [msg]) ∧
       (sendMessage (runOps CM.init opsPair) 0 { text := some " hi " }).2 =
         [0, 1].map (fun m => (m, Payload.newMessage msg)) ∧
       (0 ∈ ([0, 1] : List Nat) →
         (0, Payload.newMessage msg) ∈
           (sendMessage (runOps CM.init opsPair) 0 { text := some " hi " }).2)) :=
  ⟨sendMessage_spec.1 (runOps CM.init opsTri) 1 { text := some "x" }
     { id := 1, name := "Anonymous", language := "en", room_id := none }
     rfl rfl (by decide),
   sendMessage_spec.2.1 (runOps CM.init opsPair) 0 { text := some "   " }
     { id := 0, name := "Host", language := "en", room_id := some 2 } 2
     rfl rfl (by decide),
   sendMessage_spec.2.2 (runOps CM.init opsPair) 0 { text := some " hi " }
     { id := 0, name := "Host", language := "en", room_id := some 2 } 2 [0, 1] []
     rfl rfl (by decide) rfl rfl (by decide)⟩

/-- Witness for C7's amended theorem at a concrete state. -/
theorem updateProfile_spec_witness :
    dget (updateProfile (runOps CM.init opsPair) 1 { name := some "Bob" }).1.users 1 =
      some { id := 1, name := "Bob", language := "en", room_id := some 2 } ∧
    (updateProfile (runOps CM.init opsPair) 1 { name := some "Bob" }).2 =
      (1, Payload.profileUpdated
          { id := 1, name := "Bob", language := "en", is_host := false }) ::
        (([0, 1] : List Nat).filter (fun m => m ≠ 1)).map
          (fun m => (m, Payload.userJoined
            { id := 1, name := "Bob", language := "en", is_host := false } true)) := by
  have h := updateProfile_spec (runOps CM.init opsPair) 1 { name := some "Bob" }
    { id := 1, name := "Guest", language := "en", room_id := some 2 }
    { id := 1, name := "Bob", language := "en", room_id := some 2 }
    rfl (by decide) (by decide)
  exact ⟨h.1, h.2.2.2 2 [0, 1] rfl (by decide) (by decide) rfl (by decide)⟩

/-- Witness for C8 at a concrete unknown type and the concrete KeyError trace. -/
theorem handleMessage_spec_witness :
    handleMessage (runOps CM.init opsTri) 1 { type := some "BOGUS" } "" =
      (runOps CM.init opsTri,
       [(1, Payload.error "INVALID_MESSAGE_TYPE" "Unknown message type: BOGUS")]) ∧
    handleMessage (runOps CM.init opsSolo) 0 (joinData "ABCDEF") "" =
      ((joinRoom (runOps CM.init opsSolo) 0 (joinData "ABCDEF")).1,
       (joinRoom (runOps CM.init opsSolo) 0 (joinData "ABCDEF")).2.1 ++
         sendPersonal (joinRoom (runOps CM.init opsSolo) 0 (joinData "ABCDEF")).1
           (Payload.error "INTERNAL_ERROR" "KeyError: 1") 0) := by
  constructor
  · have h := handleMessage_spec.2.2.2.2.2.2.2.2 (runOps CM.init opsTri) 1
      { type := some "BOGUS" } "" (by decide)
    rw [h]
    rfl
  · exact handleMessage_spec.2.2.1 (runOps CM.init opsSolo) 0 (joinData "ABCDEF") ""
      (joinRoom (runOps CM.init opsSolo) 0 (joinData "ABCDEF")).1
      (joinRoom (runOps CM.init opsSolo) 0 (joinData "ABCDEF")).2.1 "KeyError: 1"
      rfl (by rfl)

/-- Witness for C9 at concrete codes. -/
theorem joinRoom_code_spec_witness :
    ((genRoomCode (fun _ => (0 : Fin 36))).length = 6 ∧
      ∀ c ∈ (genRoomCode (fun _ => (0 : Fin 36))).toList, c.isUpper ∨ c.isDigit) ∧
    joinRoom (runOps CM.init opsTri) 1 (joinData "abcdef") =
      joinRoom (runOps CM.init opsTri) 1 (joinData "ABCDEF") ∧
    joinRoom (runOps CM.init opsTri) 1 (joinData "ZZZZZZ") =
      (runOps CM.init opsTri,
       sendPersonal (runOps CM.init opsTri)
         (Payload.error "INVALID_ROOM_CODE" "Room not found") 1,
       none) := by
  refine ⟨joinRoom_code_spec.1 (fun _ => (0 : Fin 36)), ?_,
    joinRoom_code_spec.2.2.1 (runOps CM.init opsTri) 1 (joinData "ZZZZZZ")
      { id := 1, name := "Anonymous", language := "en", room_id := none } rfl rfl⟩
  exact joinRoom_code_spec.2.1 (runOps CM.init opsTri) 1 { type := some "JOIN_ROOM" }
    "abcdef" "ABCDEF" (by decide)

/-- Witness for C2's amended theorem at a concrete collision. -/
theorem createRoom_code_overwrite_witness :
    dget (createRoom (runOps CM.init opsTri) 1 createData "ABCDEF").1.rooms 2 =
      some { id := 2, code := "ABCDEF", name := "New Room", host_id := 0 } ∧
    (dget (createRoom (runOps CM.init opsTri) 1 createData "ABCDEF").1.rooms 3).map
      (fun r => r.code) = some "ABCDEF" ∧
    dget (createRoom (runOps CM.init opsTri) 1 createData "ABCDEF").1.room_codes
      "ABCDEF" = some 3 :=
  createRoom_code_overwrite (runOps CM.init opsTri) 1 createData "ABCDEF"
    { id := 1, name := "Anonymous", language := "en", room_id := none } 2
    { id := 2, code := "ABCDEF", name := "New Room", host_id := 0 }
    rfl rfl rfl rfl (by decide)

/-- Witness for C10's amended theorem at concrete all-default requests. -/
theorem payloadDefaults_spec_witness :
    (dget (createRoom (runOps CM.init opsTri) 1
        { type := some "CREATE_ROOM" } "QQQQQQ").1.rooms 3).map
      (fun r => r.name) = some "New Room" ∧
    (dget (joinRoom (runOps CM.init opsTri) 1 (joinData "abcdef")).1.users 1).map
      (fun v => (v.name, v.language)) = some ("Guest", "en") :=
  ⟨(payloadDefaults_spec.1 (runOps CM.init opsTri) 1
      { id := 1, name := "Anonymous", language := "en", room_id := none } "QQQQQQ"
      rfl rfl).1,
   payloadDefaults_spec.2 (runOps CM.init opsTri) 1 (joinData "abcdef")
     { id := 1, name := "Anonymous", language := "en", room_id := none } 2
     { id := 2, code := "ABCDEF", name := "New Room", host_id := 0 } [0]
     rfl rfl rfl rfl rfl rfl rfl⟩
